import Mathlib

/-!
Verification of the ambient audio scheduling core of the `pirates` repository.

The development shallowly embeds:
* the worker-side `BackgroundScheduler` of `src/audio-worker.js`
  (melody table, `processNext`, `start`, `stop`, the `sync` control message,
  and the timer discipline), together with a small world model for the
  pending `setTimeout` wake-ups;
* the main-thread bridge `audioWorker.onmessage` handlers of `src/sound.js`
  and of the variant source `src/unnamed/part_001` (session-storage
  persistence, staleness drop, note synthesis trigger);
* the `SoundSystem` module of `src/sound.js` (`initContext`, `createTone`,
  `createNote`, the discrete-sound table, `play`, `startAmbient`,
  `stopAmbient`).

Timestamps and durations are modelled in integer milliseconds (all durations
in the sources are integer constants; `performance.now()` values are
quantified over arbitrary integers).  Frequencies and Web-Audio-clock
quantities (seconds, volumes) are exact rationals.
-/

namespace Pirates

/-- One entry of the worker melody table (`class AudioTask`,
`src/audio-worker.js` lines 7-14): frequency in Hz, duration in ms,
priority (1 = normal, 2 = accent), rest flag. -/
structure AudioTask where
  note : ℚ
  duration : ℤ
  priority : ℕ
  isRest : Bool
deriving DecidableEq

/-- The fixed 11-entry melody built in the `BackgroundScheduler` constructor
(`src/audio-worker.js` lines 27-48). -/
def defaultMelody : List AudioTask :=
  [ ⟨392.00, 2000, 1, false⟩,
    ⟨329.63, 2000, 1, false⟩,
    ⟨261.63, 1500, 1, false⟩,
    ⟨293.66, 1500, 1, false⟩,
    ⟨196.00, 3000, 2, false⟩,
    ⟨0, 1000, 1, true⟩,
    ⟨261.63, 1500, 1, false⟩,
    ⟨329.63, 1500, 1, false⟩,
    ⟨493.88, 2000, 2, false⟩,
    ⟨392.00, 3000, 1, false⟩,
    ⟨0, 4000, 1, true⟩ ]

/-- Mutable fields of `class BackgroundScheduler`
(`src/audio-worker.js` lines 16-22).  `timer` holds the handle of the last
`setTimeout` issued (or `none` for JavaScript `null`); `currentIndex` is an
integer because the JavaScript `%` operator can leave it negative. -/
structure BackgroundScheduler where
  isRunning : Bool
  timer : Option ℕ
  currentIndex : ℤ
  lastExecutionTime : ℤ
  melody : List AudioTask

/-- A scheduler instance together with the timer environment of its worker:
`pending` is the list of issued-but-not-yet-fired-and-not-cancelled timeout
handles, `nextId` generates fresh handles. -/
structure World where
  sch : BackgroundScheduler
  pending : List ℕ
  nextId : ℕ

/-- Messages posted from the worker to the main thread by `processNext`
(`src/audio-worker.js` lines 62-78): `play_note` for sounding tasks and
`sync_state` for rests. -/
inductive WorkerMsg where
  | playNote (note : ℚ) (duration : ℤ) (priority : ℕ) (timestamp : ℤ)
      (currentIndex : ℤ)
  | syncState (currentIndex : ℤ)
deriving DecidableEq

/-- The melody index carried by an emitted message. -/
def WorkerMsg.emittedIndex : WorkerMsg → ℤ
  | .playNote _ _ _ _ i => i
  | .syncState i => i

/-- JavaScript array indexing `melody[i]`: `undefined` (here `none`) for a
negative or out-of-range index. -/
def melodyGet (l : List AudioTask) (i : ℤ) : Option AudioTask :=
  if 0 ≤ i then l[i.toNat]? else none

/-- The JavaScript `%` operator on integers: remainder truncated toward
zero (`Int.tmod`), so the result of `a % b` is negative when `a` is. -/
def jsMod (a b : ℤ) : ℤ := Int.tmod a b

/-- One emission step, `BackgroundScheduler.processNext`
(`src/audio-worker.js` lines 55-111).  Returns the updated world, the
messages posted during the step, and the delay handed to `setTimeout`
(`none` on the not-running early return).  The result is `none` when the
JavaScript code would throw (task lookup at an invalid index yields
`undefined` and `task.isRest` faults). -/
def processNext (now : ℤ) (w : World) : Option (World × List WorkerMsg × Option ℤ) :=
  if w.sch.isRunning = false then some (w, [], none) else
    match melodyGet w.sch.melody w.sch.currentIndex with
    | none => none
    | some task =>
      let msgs : List WorkerMsg :=
        if task.isRest = false then
          [WorkerMsg.playNote task.note task.duration task.priority now
            w.sch.currentIndex]
        else
          [WorkerMsg.syncState w.sch.currentIndex]
      let newIndex : ℤ := jsMod (w.sch.currentIndex + 1) (w.sch.melody.length : ℤ)
      let rawDelay : ℤ := w.sch.lastExecutionTime + task.duration - now
      let nextDelay : ℤ := if rawDelay < 0 then 0 else rawDelay
      let newLast : ℤ :=
        if rawDelay < 0 then now else w.sch.lastExecutionTime + task.duration
      let cleared : List ℕ :=
        match w.sch.timer with
        | some t => w.pending.erase t
        | none => w.pending
      some
        ({ sch :=
            { w.sch with
              currentIndex := newIndex
              lastExecutionTime := newLast
              timer := some w.nextId }
           pending := cleared ++ [w.nextId]
           nextId := w.nextId + 1 },
         msgs, some nextDelay)

/-- The assignment block of `BackgroundScheduler.start`
(`src/audio-worker.js` lines 115-117), before the call to `processNext`:
`currentIndex = startIndex % melody.length`, `isRunning = true`,
`lastExecutionTime = performance.now()`. -/
def startSet (now : ℤ) (startIndex : ℤ) (w : World) : World :=
  { w with sch :=
    { w.sch with
      currentIndex := jsMod startIndex (w.sch.melody.length : ℤ)
      isRunning := true
      lastExecutionTime := now } }

/-- `BackgroundScheduler.start` (`src/audio-worker.js` lines 113-119):
no-op when already running, otherwise set the fields and run the first
emission step. -/
def start (now : ℤ) (startIndex : ℤ) (w : World) :
    Option (World × List WorkerMsg × Option ℤ) :=
  if w.sch.isRunning then some (w, [], none)
  else processNext now (startSet now startIndex w)

/-- `BackgroundScheduler.stop` (`src/audio-worker.js` lines 121-127):
clear `isRunning`, cancel the stored timer if any. -/
def stop (w : World) : World :=
  match w.sch.timer with
  | some t =>
      { w with
        sch := { w.sch with isRunning := false, timer := none }
        pending := w.pending.erase t }
  | none => { w with sch := { w.sch with isRunning := false } }

/-- The `sync` control-message case of `self.onmessage`
(`src/audio-worker.js` lines 156-160):
`currentIndex = index % melody.length`. -/
def sync (index : ℤ) (w : World) : World :=
  { w with sch :=
    { w.sch with currentIndex := jsMod index (w.sch.melody.length : ℤ) } }

/-- Expiry of a pending timeout: the handle leaves the pending list and its
`processNext` callback runs.  Firing a handle that is not pending does
nothing (a cleared or already-fired timer never calls back). -/
def fireTimer (now : ℤ) (t : ℕ) (w : World) :
    Option (World × List WorkerMsg × Option ℤ) :=
  if t ∈ w.pending then processNext now { w with pending := w.pending.erase t }
  else some (w, [], none)

/-- The worker state right after `new BackgroundScheduler()`
(`src/audio-worker.js` lines 17-22 and 139): not running, no timer,
index 0, reference clock 0, the fixed 11-entry melody, no pending
timeouts. -/
def initWorld : World :=
  { sch :=
      { isRunning := false
        timer := none
        currentIndex := 0
        lastExecutionTime := 0
        melody := defaultMelody }
    pending := []
    nextId := 0 }

/-- Run `processNext` once per entry of `nows` (the observed
`performance.now()` value of each step), collecting all posted messages. -/
def runSteps : List ℤ → World → Option (World × List WorkerMsg)
  | [], w => some (w, [])
  | now :: rest, w =>
    match processNext now w with
    | none => none
    | some (w1, msgs, _) =>
      match runSteps rest w1 with
      | none => none
      | some (w2, more) => some (w2, msgs ++ more)

/-- Checks that a run of emission steps is well-formed and never stalled:
at each step the scheduler is running, the current index addresses a task,
and the observed time has not passed the expected next-fire time
(`lastExecutionTime + task.duration`), i.e. the computed delay is
non-negative. -/
def stepsOk : World → List ℤ → Bool
  | _, [] => true
  | w, now :: rest =>
    w.sch.isRunning &&
      match melodyGet w.sch.melody w.sch.currentIndex with
      | none => false
      | some task =>
        decide (0 ≤ w.sch.lastExecutionTime + task.duration - now) &&
          match processNext now w with
          | none => false
          | some (w1, _, _) => stepsOk w1 rest

/-- The nominal durations (ms) of the tasks processed along a run. -/
def traceDurations : World → List ℤ → List ℤ
  | _, [] => []
  | w, now :: rest =>
    match melodyGet w.sch.melody w.sch.currentIndex with
    | none => []
    | some task =>
      match processNext now w with
      | none => []
      | some (w1, _, _) => task.duration :: traceDurations w1 rest

/-- External events of a worker lifetime: the control messages handled by
`self.onmessage` (`src/audio-worker.js` lines 144-178) and the expiry of a
pending timeout.  `get_status` and `check_health` only post replies and do
not change the scheduler state. -/
inductive SchedulerEvent where
  | msgStart (index : ℤ)
  | msgStop
  | msgSync (index : ℤ)
  | msgGetStatus
  | msgCheckHealth
  | timerExpire (t : ℕ)

/-- The state transition performed by one event, at observed time `now`. -/
def stepEvent (now : ℤ) (e : SchedulerEvent) (w : World) : Option World :=
  match e with
  | .msgStart i => (start now i w).map (·.1)
  | .msgStop => some (stop w)
  | .msgSync i => some (sync i w)
  | .msgGetStatus => some w
  | .msgCheckHealth => some w
  | .timerExpire t => (fireTimer now t w).map (·.1)

/-- Worlds reachable from the freshly constructed worker by any sequence of
control messages and timer expiries. -/
inductive Reachable : World → Prop
  | init : Reachable initWorld
  | step {w w' : World} {now : ℤ} {e : SchedulerEvent} :
      Reachable w → stepEvent now e w = some w' → Reachable w'

/-- Timer-discipline invariant: either no wake-up is pending, or exactly one
is pending and its handle is the one stored in `timer`. -/
def TimerInv (w : World) : Prop :=
  w.pending = [] ∨ ∃ t, w.pending = [t] ∧ w.sch.timer = some t

/-! ## Main-thread bridge (`audioWorker.onmessage`)

`src/sound.js` lines 129-179 and the variant `src/unnamed/part_001`
lines 136-202. -/

/-- The fields of a worker-to-main message object as the bridge reads them
(`e.data`); absent fields are `none` (JavaScript `undefined`). -/
structure WorkerEventData where
  type : String
  note : ℚ := 0
  duration : ℤ := 0
  priority : Option ℕ := none
  timestamp : Option ℤ := none
  currentIndex : Option ℤ := none
deriving DecidableEq

/-- The message object a scheduler emission is received as: `play_note`
messages carry note, duration, priority, timestamp and index
(`src/audio-worker.js` lines 63-70); `sync_state` messages carry only the
index (lines 74-77). -/
def WorkerMsg.toEventData : WorkerMsg → WorkerEventData
  | .playNote note duration priority timestamp i =>
      { type := "play_note", note := note, duration := duration
        priority := some priority, timestamp := some timestamp
        currentIndex := some i }
  | .syncState i => { type := "sync_state", currentIndex := some i }

/-- Observable effects of one bridge `onmessage` invocation, in program
order: the session-storage write of `ambient_melody_index`, the stale-note
warning, and the triggering of the ambient note synth. -/
inductive BridgeEffect where
  | storeIndex (i : ℤ)
  | warnStale
  | synthNote (note : ℚ) (duration : ℤ) (priority : ℕ)
deriving DecidableEq

/-- JavaScript `e.data.priority || 1`: `undefined` and `0` are falsy. -/
def priorityOr1 (p : Option ℕ) : ℕ :=
  match p with
  | some q => if q = 0 then 1 else q
  | none => 1

/-- The `audioWorker.onmessage` handler installed by `startAmbient` in
`src/sound.js` (lines 129-179): persist `currentIndex` whenever present,
then, for `play_note` only, bail out without a context, drop the note when
it is stale (`now - timestamp > 150`, guarded by the truthiness of
`timestamp`), otherwise synthesize it.  `now` is the main-thread
`performance.now()`; `audioCtxPresent` states whether `audioCtx` is
non-null. -/
def onmessageSound (now : ℤ) (audioCtxPresent : Bool) (d : WorkerEventData) :
    List BridgeEffect :=
  (match d.currentIndex with
    | some i => [BridgeEffect.storeIndex i]
    | none => []) ++
  (if d.type = "play_note" then
    if audioCtxPresent = false then []
    else
      match d.timestamp with
      | some ts =>
        if ts ≠ 0 ∧ 150 < now - ts then [BridgeEffect.warnStale]
        else [BridgeEffect.synthNote d.note d.duration (priorityOr1 d.priority)]
      | none => [BridgeEffect.synthNote d.note d.duration (priorityOr1 d.priority)]
  else [])

/-- The `audioWorker.onmessage` handler of the variant source
`src/unnamed/part_001` (lines 136-202): identical persistence and guard,
but the staleness check is commented out, so every `play_note` received
with a live context is synthesized. -/
def onmessagePart001 (audioCtxPresent : Bool) (d : WorkerEventData) :
    List BridgeEffect :=
  (match d.currentIndex with
    | some i => [BridgeEffect.storeIndex i]
    | none => []) ++
  (if d.type = "play_note" then
    if audioCtxPresent = false then []
    else [BridgeEffect.synthNote d.note d.duration (priorityOr1 d.priority)]
  else [])

/-! ## SoundSystem module (`src/sound.js`) -/

/-- Audio-graph side effects scheduled by the sound system.  `tone` and
`note` are the enveloped oscillator bundles built by `createTone` /
`createNote`; `gainRamp` is a linear ramp of the ambient bus gain to
`target` over `overSeconds`; `droneStartPair` is the start of the two drone
oscillators of `startAmbient`; `workerMessage` is a control message posted
to the audio worker. -/
inductive AudioAction where
  | tone (frequency : ℚ) (wave : String) (startTime duration volume : ℚ)
  | note (frequency : ℚ) (startTime duration volume : ℚ)
  | gainRamp (target overSeconds : ℚ)
  | droneStartPair
  | workerStartMsg (index : ℤ)
  | workerStopMsg
deriving DecidableEq

/-- The module-level mutable state of the `SoundSystem` IIFE
(`src/sound.js` lines 7-11 and 85): which graph nodes exist, the ambient
guard flag, the fallback interval, the worker handle, plus a count of the
drone oscillators that have been started and never stopped. -/
structure AudioState where
  audioCtx : Bool
  masterGain : Bool
  ambientGain : Bool
  ambientStarted : Bool
  ambientTimer : Bool
  audioWorker : Bool
  droneOscs : ℕ
deriving DecidableEq

/-- The state before any call: every handle null, no drones. -/
def freshAudioState : AudioState :=
  { audioCtx := false, masterGain := false, ambientGain := false
    ambientStarted := false, ambientTimer := false, audioWorker := false
    droneOscs := 0 }

/-- Browser capabilities the sound system runs against: whether
`new AudioContext()` succeeds, whether `window.Worker` exists, and whether
`new Worker('audio-worker.js')` succeeds. -/
structure BrowserEnv where
  canCreateContext : Bool
  workerSupported : Bool
  workerCreationOk : Bool
deriving DecidableEq

/-- `initContext` (`src/sound.js` lines 21-35): on the first call build the
master and ambient gain nodes; `new AudioContext()` may throw, which
propagates to the caller.  Subsequent calls only resume a suspended
context. -/
def initContext (env : BrowserEnv) (s : AudioState) : Except String AudioState :=
  if s.audioCtx = false then
    if env.canCreateContext then
      Except.ok { s with audioCtx := true, masterGain := true, ambientGain := true }
    else Except.error "AudioContext construction failed"
  else Except.ok s

/-- `clamp` (`src/sound.js` line 37): `Math.max(min, Math.min(max, num))`. -/
def clamp (num mn mx : ℚ) : ℚ := max mn (min mx num)

/-- `SAFE_MIN_VOLUME` (`src/sound.js` line 19). -/
def SAFE_MIN_VOLUME : ℚ := 0.0001

/-- `createTone` (`src/sound.js` lines 39-57): a silent no-op when the
context or the destination bus is missing or the duration is not positive;
otherwise one enveloped oscillator at the clamped volume.  `audioCtx` and
`destination` state whether those handles are non-null. -/
def createTone (audioCtx destination : Bool) (frequency : ℚ) (wave : String)
    (startTime duration volume : ℚ) : List AudioAction :=
  if audioCtx = false ∨ destination = false ∨ duration ≤ 0 then []
  else [AudioAction.tone frequency wave startTime duration
          (clamp volume SAFE_MIN_VOLUME 1)]

/-- `createNote` (`src/sound.js` lines 59-83): a silent no-op when the
context or the destination bus is missing (no duration guard); otherwise
one layered, filtered note at the clamped volume. -/
def createNote (audioCtx destination : Bool) (frequency : ℚ)
    (startTime duration volume : ℚ) : List AudioAction :=
  if audioCtx = false ∨ destination = false then []
  else [AudioAction.note frequency startTime duration
          (clamp volume SAFE_MIN_VOLUME 1)]

/-- A discrete-sound body: given environment, the audio-clock `now`, the
intensity option and the current state, either new state plus scheduled
actions, or a thrown error. -/
abbrev SoundFn :=
  BrowserEnv → ℚ → ℚ → AudioState → Except String (AudioState × List AudioAction)

/-- `sounds.click` (`src/sound.js` lines 223-230). -/
def clickSound : SoundFn := fun env now intensity s => do
  let s1 ← initContext env s
  if s1.audioCtx = false then Except.ok (s1, [])
  else
    let vol := clamp (0.04 + intensity * 0.06) 0.04 0.12
    Except.ok (s1,
      createTone s1.audioCtx s1.masterGain 293.66 "square" now 0.06 vol ++
      createTone s1.audioCtx s1.masterGain 220.0 "triangle" (now + 0.01) 0.08
        (vol * 0.8))

/-- `sounds.hover` (`src/sound.js` lines 231-237). -/
def hoverSound : SoundFn := fun env now intensity s => do
  let s1 ← initContext env s
  if s1.audioCtx = false then Except.ok (s1, [])
  else
    let vol := clamp (0.015 + intensity * 0.025) 0.012 0.05
    Except.ok (s1, createTone s1.audioCtx s1.masterGain 659.25 "triangle" now
      0.045 vol)

/-- `sounds.success` (`src/sound.js` lines 238-245). -/
def successSound : SoundFn := fun env now _ s => do
  let s1 ← initContext env s
  if s1.audioCtx = false then Except.ok (s1, [])
  else
    Except.ok (s1,
      createNote s1.audioCtx s1.masterGain 392.0 now 0.14 0.07 ++
      createNote s1.audioCtx s1.masterGain 493.88 (now + 0.12) 0.14 0.07 ++
      createNote s1.audioCtx s1.masterGain 587.33 (now + 0.24) 0.3 0.08)

/-- `sounds.error` (`src/sound.js` lines 246-252). -/
def errorSound : SoundFn := fun env now _ s => do
  let s1 ← initContext env s
  if s1.audioCtx = false then Except.ok (s1, [])
  else
    Except.ok (s1,
      createTone s1.audioCtx s1.masterGain 185.0 "sawtooth" now 0.12 0.08 ++
      createTone s1.audioCtx s1.masterGain 155.56 "sawtooth" (now + 0.1) 0.2 0.07)

/-- `sounds.hurt` (`src/sound.js` lines 253-259). -/
def hurtSound : SoundFn := fun env now _ s => do
  let s1 ← initContext env s
  if s1.audioCtx = false then Except.ok (s1, [])
  else
    Except.ok (s1,
      createTone s1.audioCtx s1.masterGain 164.81 "sawtooth" now 0.16 0.08 ++
      createTone s1.audioCtx s1.masterGain 130.81 "sawtooth" (now + 0.05) 0.2 0.07)

/-- `sounds.scan` (`src/sound.js` lines 260-266). -/
def scanSound : SoundFn := fun env now _ s => do
  let s1 ← initContext env s
  if s1.audioCtx = false then Except.ok (s1, [])
  else
    Except.ok (s1,
      createTone s1.audioCtx s1.masterGain 783.99 "sine" now 0.06 0.05 ++
      createTone s1.audioCtx s1.masterGain 987.77 "sine" (now + 0.05) 0.09 0.04)

/-- `sounds.level_up` (`src/sound.js` lines 267-274). -/
def levelUpSound : SoundFn := fun env now _ s => do
  let s1 ← initContext env s
  if s1.audioCtx = false then Except.ok (s1, [])
  else
    Except.ok (s1,
      createNote s1.audioCtx s1.masterGain 329.63 now 0.35 0.09 ++
      createNote s1.audioCtx s1.masterGain 392.0 (now + 0.12) 0.35 0.09 ++
      createNote s1.audioCtx s1.masterGain 493.88 (now + 0.24) 0.35 0.09 ++
      createNote s1.audioCtx s1.masterGain 659.25 (now + 0.36) 0.35 0.09)

/-- The `sounds` lookup table (`src/sound.js` lines 222-275); `none` models
`sounds[type]` being `undefined`. -/
def soundsTable (ty : String) : Option SoundFn :=
  if ty = "click" then some clickSound
  else if ty = "hover" then some hoverSound
  else if ty = "success" then some successSound
  else if ty = "error" then some errorSound
  else if ty = "hurt" then some hurtSound
  else if ty = "scan" then some scanSound
  else if ty = "level_up" then some levelUpSound
  else none

/-- The body of `play` inside its `try` block (`src/sound.js`
lines 278-283): ensure a context, look the sound up, run it when it is a
function. -/
def playBody (env : BrowserEnv) (now intensity : ℚ) (s : AudioState)
    (ty : String) : Except String (AudioState × List AudioAction) := do
  let s1 ← if s.audioCtx = false then initContext env s else Except.ok s
  match soundsTable ty with
  | some fn => fn env now intensity s1
  | none => Except.ok (s1, [])

/-- `play` (`src/sound.js` lines 277-287): the whole body is wrapped in
`try { ... } catch (e) { console.warn(...) }`, so a thrown error is
swallowed and nothing is scheduled. -/
def play (env : BrowserEnv) (now intensity : ℚ) (s : AudioState)
    (ty : String) : Except String (AudioState × List AudioAction) :=
  match playBody env now intensity s ty with
  | Except.ok r => Except.ok r
  | Except.error _ => Except.ok (s, [])

/-- `startAmbient` (`src/sound.js` lines 87-189): ensure a context, bail
out when already started or the graph is missing, fade the ambient bus in,
start the two drone oscillators, then start the worker (or the legacy
interval when workers are unavailable or construction throws).
`savedIndex` is the parsed `ambient_melody_index` session-storage value. -/
def startAmbient (env : BrowserEnv) (savedIndex : ℤ) (s : AudioState) :
    Except String (AudioState × List AudioAction) :=
  match initContext env s with
  | Except.error e => Except.error e
  | Except.ok s1 =>
    if s1.ambientStarted ∨ s1.audioCtx = false ∨ s1.ambientGain = false then
      Except.ok (s1, [])
    else
      let s2 := { s1 with ambientStarted := true, droneOscs := s1.droneOscs + 2 }
      let acts := [AudioAction.gainRamp 0.65 0.5, AudioAction.droneStartPair]
      if env.workerSupported then
        if env.workerCreationOk then
          Except.ok ({ s2 with audioWorker := true },
            acts ++ [AudioAction.workerStartMsg savedIndex])
        else Except.ok ({ s2 with ambientTimer := true }, acts)
      else Except.ok ({ s2 with ambientTimer := true }, acts)

/-- `stopAmbient` (`src/sound.js` lines 203-220): stop and release the
worker, clear the fallback interval, ramp the ambient bus gain to 0 over
0.5 s, reset the `ambientStarted` guard.  The drone oscillators are not
touched. -/
def stopAmbient (s : AudioState) : AudioState × List AudioAction :=
  let (s1, a1) :=
    if s.audioWorker then
      ({ s with audioWorker := false }, [AudioAction.workerStopMsg])
    else (s, [])
  let s2 := if s1.ambientTimer then { s1 with ambientTimer := false } else s1
  let a2 :=
    if s2.audioCtx ∧ s2.ambientGain then [AudioAction.gainRamp 0 0.5] else []
  ({ s2 with ambientStarted := false }, a1 ++ a2)

/-- One `startAmbient`; `stopAmbient` cycle (state part only). -/
def ambientCycle (env : BrowserEnv) (savedIndex : ℤ) (s : AudioState) :
    AudioState :=
  match startAmbient env savedIndex s with
  | Except.ok (s1, _) => (stopAmbient s1).1
  | Except.error _ => s

/-! ## Scenario data and helper lemmas -/

/-- The two-entry sequence of the specification scenario:
`[{440Hz,1000ms,normal,false}, {0,500ms,normal,true}]`. -/
def scenarioMelody : List AudioTask := [⟨440, 1000, 1, false⟩, ⟨0, 500, 1, true⟩]

/-- A fresh scheduler loaded with the scenario sequence. -/
def scenarioWorld : World :=
  { sch :=
      { isRunning := false
        timer := none
        currentIndex := 0
        lastExecutionTime := 0
        melody := scenarioMelody }
    pending := []
    nextId := 0 }

/-- Evaluation of one non-stalled emission step: the message carries the
pre-advance index, the index advances circularly, the reference clock
accumulates the nominal duration, and the cleared-and-replaced timer is the
fresh handle. -/
lemma processNext_noStall (now : ℤ) (w : World) (task : AudioTask)
    (hrun : w.sch.isRunning = true)
    (htask : melodyGet w.sch.melody w.sch.currentIndex = some task)
    (hge : 0 ≤ w.sch.lastExecutionTime + task.duration - now) :
    processNext now w =
      some
        ({ sch :=
            { w.sch with
              currentIndex := jsMod (w.sch.currentIndex + 1) (w.sch.melody.length : ℤ)
              lastExecutionTime := w.sch.lastExecutionTime + task.duration
              timer := some w.nextId }
           pending :=
            (match w.sch.timer with
              | some t => w.pending.erase t
              | none => w.pending) ++ [w.nextId]
           nextId := w.nextId + 1 },
         (if task.isRest = false then
            [WorkerMsg.playNote task.note task.duration task.priority now
              w.sch.currentIndex]
          else [WorkerMsg.syncState w.sch.currentIndex]),
         some (w.sch.lastExecutionTime + task.duration - now)) := by
  have hlt : ¬ (w.sch.lastExecutionTime + task.duration - now < 0) := by omega
  simp [processNext, hrun, htask, hlt]

/-- Evaluation of one stalled emission step: one message, zero next delay,
reference clock reset to the observed time. -/
lemma processNext_stall (now : ℤ) (w : World) (task : AudioTask)
    (hrun : w.sch.isRunning = true)
    (htask : melodyGet w.sch.melody w.sch.currentIndex = some task)
    (hlt : w.sch.lastExecutionTime + task.duration - now < 0) :
    processNext now w =
      some
        ({ sch :=
            { w.sch with
              currentIndex := jsMod (w.sch.currentIndex + 1) (w.sch.melody.length : ℤ)
              lastExecutionTime := now
              timer := some w.nextId }
           pending :=
            (match w.sch.timer with
              | some t => w.pending.erase t
              | none => w.pending) ++ [w.nextId]
           nextId := w.nextId + 1 },
         (if task.isRest = false then
            [WorkerMsg.playNote task.note task.duration task.priority now
              w.sch.currentIndex]
          else [WorkerMsg.syncState w.sch.currentIndex]),
         some 0) := by
  simp [processNext, hrun, htask, hlt]

/-! ## Claims -/

/-- Claim C1, counterexample.  The claim states that every emitted event
carries the post-advance index `(i+1) mod L`, and that in the two-entry
scenario the first event is `playNote` with index 1 and the second
`syncRest` with index 0.  On the code, `processNext` posts the message
before advancing `currentIndex` (`src/audio-worker.js` lines 62-81): the
first event of the scenario is `playNote` with index 0, the second is
`sync_state` with index 1, and 0 is not `(0+1) mod 2`. -/
theorem noteEvent_index_counterexample :
    (start 0 0 scenarioWorld).map (fun r => r.2.1) =
      some [WorkerMsg.playNote 440 1000 1 0 0] ∧
    ((start 0 0 scenarioWorld).bind (fun r => fireTimer 1000 0 r.1)).map
        (fun r => r.2.1) = some [WorkerMsg.syncState 1] ∧
    ¬ ((0 : ℤ) = jsMod (0 + 1) 2) := by
  decide

/-- Claim C1, amended: every event emitted by an emission step carries the
PRE-advance index — at position `i` on a sequence of length `L` the emitted
`play_note` or `sync_state` event has `currentIndex = i`, and the scheduler
then advances to `(i+1) mod L`; in the two-entry scenario the first event
is `playNote` with index 0 and the second `syncRest` with index 1. -/
theorem noteEvent_preadvance_index (now : ℤ) (w : World) (task : AudioTask)
    (hrun : w.sch.isRunning = true)
    (htask : melodyGet w.sch.melody w.sch.currentIndex = some task) :
    (processNext now w).map
        (fun r => (r.2.1.map WorkerMsg.emittedIndex, r.1.sch.currentIndex)) =
      some ([w.sch.currentIndex],
        jsMod (w.sch.currentIndex + 1) (w.sch.melody.length : ℤ)) := by
  rcases le_or_lt 0 (w.sch.lastExecutionTime + task.duration - now) with hge | hlt
  · rw [processNext_noStall now w task hrun htask hge]
    cases task.isRest <;> simp [WorkerMsg.emittedIndex]
  · rw [processNext_stall now w task hrun htask hlt]
    cases task.isRest <;> simp [WorkerMsg.emittedIndex]

/-- Witness for the amended C1 at the scenario: the first emission after
`start(0)` reports index 0 and advances to 1. -/
theorem noteEvent_preadvance_index_witness :
    (processNext 0 (startSet 0 0 scenarioWorld)).map
        (fun r => (r.2.1.map WorkerMsg.emittedIndex, r.1.sch.currentIndex)) =
      some ([0], jsMod (0 + 1) 2) := by
  have h := noteEvent_preadvance_index 0 (startSet 0 0 scenarioWorld)
    ⟨440, 1000, 1, false⟩ (by decide) (by decide)
  simpa using h

/-- Claim C2, counterexample.  The claim covers "negative-equivalent wrap
cases", but JavaScript `%` truncates toward zero: `start(-1)` on the
11-entry melody sets `currentIndex = -1`, which is neither
`(-1) mod 11 = 10` nor within `0 ≤ currentIndex < 11`; the first emission
step then faults on the `undefined` task (`start` returns `none`).  The
`sync` case behaves identically. -/
theorem start_mod_counterexample :
    (startSet 0 (-1) initWorld).sch.currentIndex = -1 ∧
    ¬ (0 ≤ (startSet 0 (-1) initWorld).sch.currentIndex) ∧
    (-1 : ℤ) % 11 = 10 ∧
    (start 0 (-1) initWorld).isSome = false ∧
    (sync (-1) initWorld).sch.currentIndex = -1 := by
  decide

/-- Claim C2, amended: for every `resumeIndex ≥ 0` (in particular
`resumeIndex ≥ sequenceLength`), `start(resumeIndex)` sets the active
position to `resumeIndex mod sequenceLength` and the resulting
`currentIndex` satisfies `0 ≤ currentIndex < sequenceLength`; the
`sync(index)` control message establishes the same property for its
`index ≥ 0`.  For negative indices the JavaScript remainder is negative
and the invariant fails. -/
theorem start_sync_mod_nonneg (now index : ℤ) (w : World)
    (hnn : 0 ≤ index) (hlen : 0 < w.sch.melody.length) :
    ((startSet now index w).sch.currentIndex =
        index % (w.sch.melody.length : ℤ) ∧
      0 ≤ (startSet now index w).sch.currentIndex ∧
      (startSet now index w).sch.currentIndex < (w.sch.melody.length : ℤ)) ∧
    ((sync index w).sch.currentIndex = index % (w.sch.melody.length : ℤ) ∧
      0 ≤ (sync index w).sch.currentIndex ∧
      (sync index w).sch.currentIndex < (w.sch.melody.length : ℤ)) := by
  have hlz : (0 : ℤ) < (w.sch.melody.length : ℤ) := by exact_mod_cast hlen
  have hmod : jsMod index (w.sch.melody.length : ℤ) =
      index % (w.sch.melody.length : ℤ) :=
    Int.tmod_eq_emod hnn (le_of_lt hlz)
  have hnonneg : 0 ≤ index % (w.sch.melody.length : ℤ) :=
    Int.emod_nonneg index (by omega)
  have hub : index % (w.sch.melody.length : ℤ) < (w.sch.melody.length : ℤ) :=
    Int.emod_lt_of_pos index hlz
  refine ⟨⟨?_, ?_, ?_⟩, ⟨?_, ?_, ?_⟩⟩ <;>
    simp [startSet, sync, hmod, hnonneg, hub]

/-- Witness for the amended C2: `start(25)` on the 11-entry melody resumes
at `25 mod 11 = 3`, inside the invariant range. -/
theorem start_sync_mod_nonneg_witness :
    ((startSet 7 25 initWorld).sch.currentIndex =
        (25 : ℤ) % (initWorld.sch.melody.length : ℤ) ∧
      0 ≤ (startSet 7 25 initWorld).sch.currentIndex ∧
      (startSet 7 25 initWorld).sch.currentIndex <
        (initWorld.sch.melody.length : ℤ)) ∧
    ((sync 25 initWorld).sch.currentIndex =
        (25 : ℤ) % (initWorld.sch.melody.length : ℤ) ∧
      0 ≤ (sync 25 initWorld).sch.currentIndex ∧
      (sync 25 initWorld).sch.currentIndex <
        (initWorld.sch.melody.length : ℤ)) :=
  start_sync_mod_nonneg 7 25 initWorld (by decide) (by decide)

/-- Claim C3: over any N consecutive never-stalled emission steps, the
final `lastExecutionTime` minus the initial one is exactly the sum of the
nominal durations of the N processed tasks, for any interleaving of rest
and non-rest tasks and independently of the observed timer-firing times. -/
theorem drift_free_accumulation (nows : List ℤ) (w : World)
    (h : stepsOk w nows = true) :
    (runSteps nows w).map (fun r => r.1.sch.lastExecutionTime) =
      some (w.sch.lastExecutionTime + (traceDurations w nows).sum) ∧
    (traceDurations w nows).length = nows.length := by
  induction nows generalizing w with
  | nil => simp [runSteps, traceDurations]
  | cons now rest ih =>
    rw [stepsOk] at h
    cases htask : melodyGet w.sch.melody w.sch.currentIndex with
    | none => rw [htask] at h; simp at h
    | some task =>
      rw [htask] at h
      simp only [Bool.and_eq_true, decide_eq_true_eq] at h
      obtain ⟨hrun, hge, h3⟩ := h
      have hpn := processNext_noStall now w task hrun htask hge
      rw [runSteps, traceDurations, htask]
      cases hpn' : processNext now w with
      | none => rw [hpn'] at hpn; exact absurd hpn (by simp)
      | some r =>
        obtain ⟨w1, msgs, d⟩ := r
        have heq := hpn'.symm.trans hpn
        have hlast : w1.sch.lastExecutionTime =
            w.sch.lastExecutionTime + task.duration := by
          have h1 := congrArg
            (fun o => Option.map (fun r => r.1.sch.lastExecutionTime) o) heq
          simpa using h1
        rw [hpn'] at h3
        have h3' : stepsOk w1 rest = true := h3
        obtain ⟨ih1, ih2⟩ := ih w1 h3'
        cases hrs : runSteps rest w1 with
        | none => rw [hrs] at ih1; simp at ih1
        | some r2 =>
          rw [hrs] at ih1
          simp only [Option.map_some', Option.some_inj] at ih1
          simp only [hrs, List.sum_cons, List.length_cons, Option.map_some',
            Option.some_inj]
          exact ⟨by omega, by omega⟩

/-- Witness for C3: two never-stalled steps on the scenario sequence (one
note, one rest) with a jittery second firing time advance the reference
clock by exactly 1000 + 500. -/
theorem drift_free_accumulation_witness :
    (runSteps [0, 998] (startSet 0 0 scenarioWorld)).map
        (fun r => r.1.sch.lastExecutionTime) =
      some ((startSet 0 0 scenarioWorld).sch.lastExecutionTime +
        (traceDurations (startSet 0 0 scenarioWorld) [0, 998]).sum) ∧
    (traceDurations (startSet 0 0 scenarioWorld) [0, 998]).length =
      ([0, 998] : List ℤ).length :=
  drift_free_accumulation [0, 998] (startSet 0 0 scenarioWorld) (by decide)

/-- Claim C4: when an emission step finds itself stalled
(`expectedNextFireTime - now < 0`), the step posts exactly one message,
hands `setTimeout` a zero delay, and resets `lastExecutionTime` to the
observed `now` — a single immediate catch-up task, not a burst. -/
theorem stall_single_catchup (now : ℤ) (w : World) (task : AudioTask)
    (hrun : w.sch.isRunning = true)
    (htask : melodyGet w.sch.melody w.sch.currentIndex = some task)
    (hstall : w.sch.lastExecutionTime + task.duration - now < 0) :
    (processNext now w).map
        (fun r => (r.2.2, r.1.sch.lastExecutionTime, r.2.1.length)) =
      some (some 0, now, 1) := by
  rw [processNext_stall now w task hrun htask hstall]
  cases task.isRest <;> simp

/-- Witness for C4: a five-second stall before the first sounding task of
the scenario yields one immediate (zero-delay) step and a reset clock. -/
theorem stall_single_catchup_witness :
    (processNext 5000 (startSet 0 0 scenarioWorld)).map
        (fun r => (r.2.2, r.1.sch.lastExecutionTime, r.2.1.length)) =
      some (some 0, 5000, 1) :=
  stall_single_catchup 5000 (startSet 0 0 scenarioWorld) ⟨440, 1000, 1, false⟩
    (by decide) (by decide) (by decide)

/-- Under the timer invariant, the clear-before-set block of `processNext`
(`src/audio-worker.js` lines 104-107) leaves no pending wake-up. -/
lemma cleared_nil {w : World} (hI : TimerInv w) :
    (match w.sch.timer with
      | some t => w.pending.erase t
      | none => w.pending) = [] := by
  rcases hI with h | ⟨t, hp, ht⟩
  · cases w.sch.timer <;> simp [h]
  · rw [hp, ht]
    simp

/-- One emission step preserves the timer invariant: the previously stored
handle is cleared and exactly the fresh handle is pending afterwards. -/
lemma timerInv_processNext {now : ℤ} {w : World}
    {r : World × List WorkerMsg × Option ℤ}
    (hI : TimerInv w) (h : processNext now w = some r) : TimerInv r.1 := by
  by_cases hrun : w.sch.isRunning = false
  · simp only [processNext, if_pos hrun, Option.some_inj] at h
    rw [← h]
    exact hI
  · simp only [processNext, if_neg hrun] at h
    cases htask : melodyGet w.sch.melody w.sch.currentIndex with
    | none => rw [htask] at h; simp at h
    | some task =>
      rw [htask] at h
      simp only [Option.some_inj] at h
      right
      refine ⟨w.nextId, ?_, ?_⟩
      · rw [← h]
        simpa using cleared_nil hI
      · rw [← h]

/-- `stop` preserves the timer invariant, cancelling the stored handle. -/
lemma timerInv_stop {w : World} (hI : TimerInv w) : TimerInv (stop w) := by
  rcases hI with h | ⟨t, hp, ht⟩
  · cases htimer : w.sch.timer with
    | none => left; simp [stop, htimer, h]
    | some t => left; simp [stop, htimer, h]
  · left
    simp [stop, ht, hp]

/-- `sync` touches neither the pending list nor the stored handle. -/
lemma timerInv_sync {i : ℤ} {w : World} (hI : TimerInv w) :
    TimerInv (sync i w) := by
  rcases hI with h | ⟨t, hp, ht⟩
  · left; simpa [sync] using h
  · right
    exact ⟨t, by simpa [sync] using hp, by simpa [sync] using ht⟩

/-- `start` preserves the timer invariant. -/
lemma timerInv_start {now i : ℤ} {w : World}
    {r : World × List WorkerMsg × Option ℤ}
    (hI : TimerInv w) (h : start now i w = some r) : TimerInv r.1 := by
  by_cases hrun : w.sch.isRunning
  · simp only [start, if_pos hrun, Option.some_inj] at h
    rw [← h]
    exact hI
  · simp only [start, if_neg hrun] at h
    have hI' : TimerInv (startSet now i w) := by
      rcases hI with h1 | ⟨t, hp, ht⟩
      · left; simpa [startSet] using h1
      · right
        exact ⟨t, by simpa [startSet] using hp, by simpa [startSet] using ht⟩
    exact timerInv_processNext hI' h

/-- A timer expiry preserves the timer invariant. -/
lemma timerInv_fire {now : ℤ} {t : ℕ} {w : World}
    {r : World × List WorkerMsg × Option ℤ}
    (hI : TimerInv w) (h : fireTimer now t w = some r) : TimerInv r.1 := by
  by_cases hmem : t ∈ w.pending
  · simp only [fireTimer, if_pos hmem] at h
    have hI' : TimerInv { w with pending := w.pending.erase t } := by
      rcases hI with h1 | ⟨t', hp, ht⟩
      · left; simp [h1]
      · left
        rw [hp] at hmem ⊢
        have ht' : t = t' := by simpa using hmem
        simp [ht']
    exact timerInv_processNext hI' h
  · simp only [fireTimer, if_neg hmem, Option.some_inj] at h
    rw [← h]
    exact hI

/-- Every lifetime event preserves the timer invariant. -/
lemma timerInv_step {now : ℤ} {e : SchedulerEvent} {w w' : World}
    (hI : TimerInv w) (h : stepEvent now e w = some w') : TimerInv w' := by
  cases e with
  | msgStart i =>
    simp only [stepEvent] at h
    cases hs : start now i w with
    | none => rw [hs] at h; simp at h
    | some r =>
      rw [hs] at h
      simp only [Option.map_some', Option.some_inj] at h
      rw [← h]
      exact timerInv_start hI hs
  | msgStop =>
    simp only [stepEvent, Option.some_inj] at h
    rw [← h]
    exact timerInv_stop hI
  | msgSync i =>
    simp only [stepEvent, Option.some_inj] at h
    rw [← h]
    exact timerInv_sync hI
  | msgGetStatus =>
    simp only [stepEvent, Option.some_inj] at h
    rw [← h]
    exact hI
  | msgCheckHealth =>
    simp only [stepEvent, Option.some_inj] at h
    rw [← h]
    exact hI
  | timerExpire t =>
    simp only [stepEvent] at h
    cases hs : fireTimer now t w with
    | none => rw [hs] at h; simp at h
    | some r =>
      rw [hs] at h
      simp only [Option.map_some', Option.some_inj] at h
      rw [← h]
      exact timerInv_fire hI hs

/-- Claim C5: along every lifetime of the scheduler instance (any sequence
of `start`/`stop`/`sync`/status control messages and timer expiries from
construction), at most one wake-up timer is pending at any point — each
emission step clears the previous wake-up before `setTimeout`, and `stop`
cancels the remaining one, so two concurrent timers never exist. -/
theorem at_most_one_pending_timer (w : World) (h : Reachable w) :
    w.pending.length ≤ 1 := by
  have hI : TimerInv w := by
    induction h with
    | init => left; rfl
    | step hr hstep ih => exact timerInv_step ih hstep
  rcases hI with h1 | ⟨t, hp, _⟩
  · simp [h1]
  · simp [hp]

/-- The world reached from construction by `start(0)`: running, with the
first wake-up pending. -/
def startedWorld : World :=
  (stepEvent 0 (SchedulerEvent.msgStart 0) initWorld).getD initWorld

/-- Witness for C5 at a concrete reachable world: right after `start(0)`
exactly one wake-up is pending. -/
theorem at_most_one_pending_timer_witness : startedWorld.pending.length ≤ 1 :=
  at_most_one_pending_timer startedWorld
    (Reachable.step Reachable.init
      (rfl : stepEvent 0 (SchedulerEvent.msgStart 0) initWorld =
        some startedWorld))

/-- Whether a bridge effect triggers the ambient note synth. -/
def BridgeEffect.isSynth : BridgeEffect → Bool
  | .synthNote _ _ _ => true
  | _ => false

/-- Claim C6: the staleness policy is a variant knob.  In the `src/sound.js`
variant a `play_note` event received more than 150 ms after its emission
timestamp is dropped (no note is synthesized); in the `src/unnamed/part_001`
variant the check is disabled and every received `play_note` event is
synthesized (given a live audio context). -/
theorem staleness_policy_variants (now ts : ℤ) (d : WorkerEventData)
    (hty : d.type = "play_note") (hts : d.timestamp = some ts)
    (hpos : ts ≠ 0) (hold : 150 < now - ts) :
    (onmessageSound now true d).filter (fun e => e.isSynth) = [] ∧
    ∀ e : WorkerEventData, e.type = "play_note" →
      BridgeEffect.synthNote e.note e.duration (priorityOr1 e.priority) ∈
        onmessagePart001 true e := by
  have hcond : ts ≠ 0 ∧ 150 < now - ts := ⟨hpos, hold⟩
  constructor
  · cases hc : d.currentIndex <;>
      simp [onmessageSound, hty, hts, hcond, hc, BridgeEffect.isSynth]
  · intro e hety
    cases hc : e.currentIndex <;> simp [onmessagePart001, hety, hc]

/-- Witness for C6: a note emitted at worker clock 200 and received at main
clock 400 (250 ms late) is dropped by the `src/sound.js` bridge and would
be synthesized by the `part_001` bridge. -/
theorem staleness_policy_variants_witness :
    (onmessageSound 400 true
        ⟨"play_note", 440, 1000, some 1, some 200, some 0⟩).filter
      (fun e => e.isSynth) = [] ∧
    ∀ e : WorkerEventData, e.type = "play_note" →
      BridgeEffect.synthNote e.note e.duration (priorityOr1 e.priority) ∈
        onmessagePart001 true e :=
  staleness_policy_variants 400 200
    ⟨"play_note", 440, 1000, some 1, some 200, some 0⟩ rfl rfl (by decide)
    (by decide)

/-- Claim C7: every message carrying a `currentIndex` — `play_note` and
`sync_state` alike, and also stale notes that are dropped afterwards — is
persisted to session storage first, before any drop decision; and every
scheduler emission does carry a `currentIndex`. -/
theorem persist_index_first (now : ℤ) (ctx : Bool) (d : WorkerEventData)
    (i : ℤ) (hidx : d.currentIndex = some i) :
    (onmessageSound now ctx d).head? = some (BridgeEffect.storeIndex i) ∧
    ∀ m : WorkerMsg, m.toEventData.currentIndex = some m.emittedIndex := by
  constructor
  · simp [onmessageSound, hidx]
  · intro m
    cases m <;> simp [WorkerMsg.toEventData, WorkerMsg.emittedIndex]

/-- Witness for C7: a stale `play_note` message (which the bridge will
drop) still has its index persisted first. -/
theorem persist_index_first_witness :
    (onmessageSound 400 true
        ⟨"play_note", 440, 1000, some 1, some 200, some 5⟩).head? =
      some (BridgeEffect.storeIndex 5) ∧
    ∀ m : WorkerMsg, m.toEventData.currentIndex = some m.emittedIndex :=
  persist_index_first 400 true
    ⟨"play_note", 440, 1000, some 1, some 200, some 5⟩ 5 rfl

/-- Claim C8: `stop()` is idempotent — a second call changes nothing;
after a stop the scheduler is not running, holds no timer handle, and its
`currentIndex` is exactly what it was before the call. -/
theorem stop_idempotent (w : World) :
    stop (stop w) = stop w ∧
    (stop w).sch.isRunning = false ∧
    (stop w).sch.timer = none ∧
    (stop w).sch.currentIndex = w.sch.currentIndex := by
  cases htimer : w.sch.timer <;> simp [stop, htimer]

/-- Claim C9: tone-producing calls are silent no-ops without an
initialized audio graph — `createTone` also for non-positive durations —
and the public `play` entry point swallows every playback error; in
particular `play('click')` before any successful unlock returns normally
with nothing scheduled. -/
theorem tone_noop_and_play_swallows :
    (∀ (ctx dest : Bool) (f : ℚ) (wv : String) (st dur vol : ℚ),
        ctx = false ∨ dest = false ∨ dur ≤ 0 →
        createTone ctx dest f wv st dur vol = []) ∧
    (∀ (ctx dest : Bool) (f st dur vol : ℚ),
        ctx = false ∨ dest = false →
        createNote ctx dest f st dur vol = []) ∧
    (∀ (env : BrowserEnv) (now intensity : ℚ) (s : AudioState) (ty : String),
        ∃ r, play env now intensity s ty = Except.ok r) ∧
    (∀ (now intensity : ℚ) (wk wkOk : Bool),
        play ⟨false, wk, wkOk⟩ now intensity freshAudioState "click" =
          Except.ok (freshAudioState, [])) := by
  refine ⟨?_, ?_, ?_, ?_⟩
  · intro ctx dest f wv st dur vol h
    rcases h with h | h | h <;> simp [createTone, h]
  · intro ctx dest f st dur vol h
    rcases h with h | h <;> simp [createNote, h]
  · intro env now intensity s ty
    unfold play
    cases h : playBody env now intensity s ty with
    | ok r => exact ⟨r, rfl⟩
    | error e => exact ⟨(s, []), rfl⟩
  · intro now intensity wk wkOk
    rfl

/-- Witness for C9: `createTone` with no context (and with a non-positive
duration) schedules nothing; `play('click')` both with and without a
constructible context returns without an error. -/
theorem tone_noop_and_play_swallows_witness :
    createTone false true 440 "square" 0 1 (1 / 10) = [] ∧
    createNote false true 440 0 1 (1 / 10) = [] ∧
    (∃ r, play ⟨true, true, true⟩ 0 1 freshAudioState "click" = Except.ok r) ∧
    play ⟨false, true, true⟩ 0 1 freshAudioState "click" =
      Except.ok (freshAudioState, []) :=
  ⟨tone_noop_and_play_swallows.1 false true 440 "square" 0 1 (1 / 10)
      (Or.inl rfl),
   tone_noop_and_play_swallows.2.1 false true 440 0 1 (1 / 10) (Or.inl rfl),
   tone_noop_and_play_swallows.2.2.1 ⟨true, true, true⟩ 0 1 freshAudioState
      "click",
   tone_noop_and_play_swallows.2.2.2 0 1 true true⟩

/-- One start/stop cycle keeps the audio graph, clears the guard flag, and
leaves exactly two more running drone oscillators than before. -/
lemma ambientCycle_spec (env : BrowserEnv) (idx : ℤ) (s : AudioState)
    (hctx : s.audioCtx = true) (hgain : s.ambientGain = true)
    (hns : s.ambientStarted = false) :
    (ambientCycle env idx s).audioCtx = true ∧
    (ambientCycle env idx s).ambientGain = true ∧
    (ambientCycle env idx s).ambientStarted = false ∧
    (ambientCycle env idx s).droneOscs = s.droneOscs + 2 := by
  obtain ⟨c, ws, wo⟩ := env
  obtain ⟨sc, sm, sg, sa, st', sw, sd⟩ := s
  cases sc with
  | false => simp at hctx
  | true =>
    cases sg with
    | false => simp at hgain
    | true =>
      cases sa with
      | true => simp at hns
      | false =>
        cases ws <;> cases wo <;> cases sw <;> cases st' <;>
          simp [ambientCycle, startAmbient, initContext, stopAmbient]

/-- Claim C10: `stopAmbient` terminates the worker, clears the fallback
interval, ramps the ambient bus to 0 over 0.5 s and resets the
`ambientStarted` guard, but never stops a started drone oscillator; since
the guard is reset, each further `startAmbient` adds another never-stopped
drone pair, so after n start/stop cycles 2·n drone oscillators are
running. -/
theorem stopAmbient_drones_accumulate (env : BrowserEnv) (idx : ℤ)
    (s : AudioState) (n : ℕ)
    (hctx : s.audioCtx = true) (hgain : s.ambientGain = true)
    (hns : s.ambientStarted = false) :
    (stopAmbient s).1.droneOscs = s.droneOscs ∧
    (stopAmbient s).1.ambientStarted = false ∧
    (stopAmbient s).1.audioWorker = false ∧
    (stopAmbient s).1.ambientTimer = false ∧
    AudioAction.gainRamp 0 0.5 ∈ (stopAmbient s).2 ∧
    ((ambientCycle env idx)^[n] s).droneOscs = s.droneOscs + 2 * n := by
  have hiter : ∀ m : ℕ,
      ((ambientCycle env idx)^[m] s).audioCtx = true ∧
      ((ambientCycle env idx)^[m] s).ambientGain = true ∧
      ((ambientCycle env idx)^[m] s).ambientStarted = false ∧
      ((ambientCycle env idx)^[m] s).droneOscs = s.droneOscs + 2 * m := by
    intro m
    induction m with
    | zero => simp [hctx, hgain, hns]
    | succ k ihk =>
      rw [Function.iterate_succ_apply']
      obtain ⟨h1, h2, h3, h4⟩ := ihk
      obtain ⟨g1, g2, g3, g4⟩ := ambientCycle_spec env idx _ h1 h2 h3
      exact ⟨g1, g2, g3, by rw [g4, h4]; ring⟩
  refine ⟨?_, ?_, ?_, ?_, ?_, (hiter n).2.2.2⟩ <;>
    cases hw : s.audioWorker <;> cases ht' : s.ambientTimer <;>
      simp [stopAmbient, hw, ht', hctx, hgain]

/-- A page state with a live audio graph and no ambient melody running. -/
def readyAudioState : AudioState :=
  { audioCtx := true, masterGain := true, ambientGain := true
    ambientStarted := false, ambientTimer := false, audioWorker := false
    droneOscs := 0 }

/-- Witness for C10: from a live graph with no drones, two start/stop
cycles leave four running drone oscillators, and a `stopAmbient` call
changes none of them. -/
theorem stopAmbient_drones_accumulate_witness :
    (stopAmbient readyAudioState).1.droneOscs = readyAudioState.droneOscs ∧
    (stopAmbient readyAudioState).1.ambientStarted = false ∧
    (stopAmbient readyAudioState).1.audioWorker = false ∧
    (stopAmbient readyAudioState).1.ambientTimer = false ∧
    AudioAction.gainRamp 0 0.5 ∈ (stopAmbient readyAudioState).2 ∧
    ((ambientCycle ⟨true, true, true⟩ 0)^[2] readyAudioState).droneOscs =
      readyAudioState.droneOscs + 2 * 2 :=
  stopAmbient_drones_accumulate ⟨true, true, true⟩ 0 readyAudioState 2 rfl rfl
    rfl

end Pirates
